import Mathlib

set_option maxHeartbeats 1000000

namespace RailwayFastapi

/-! Shallow embedding of the railwayapp-starters/fastapi pipeline:
the webhook endpoints and per-contact queue machinery of src/main.py,
the request validation of src/functions.py, and the celery retry task
with its run-polling loop of src/celery_worker.py.  Machine time is
modelled as Nat seconds; external collaborators (Redis, the OpenAI job
service, the GoHighLevel CRM) are modelled as explicit state or oracle
functions passed in. -/

/-- An inbound webhook JSON body, restricted to the fields the pipeline
reads (functions.py 175-179, main.py 85, 144).  A missing key gives
none; the messages list is the optional "messages" array read at
main.py 85. -/
structure RequestData where
  thread_id : Option String
  assistant_id : Option String
  ghl_contact_id : Option String
  ghl_recent_message : Option String
  ghl_convo_id : Option String
  messages : List String
deriving DecidableEq, Repr

/-- The dict returned by a successful validate_request_data
(functions.py 178-179, 194): the four required fields plus the resolved
conversation id, in insertion order thread_id, assistant_id,
ghl_contact_id, ghl_recent_message, ghl_convo_id. -/
structure ValidatedFields where
  thread_id : String
  assistant_id : String
  ghl_contact_id : String
  ghl_recent_message : String
  ghl_convo_id : String
deriving DecidableEq, Repr

/-- The test at functions.py 181 and 187: a field value is missing when
the key is absent (Python None), the string is empty (falsy), or it is
the literal string "null". -/
def fieldMissing : Option String → Bool
  | none => true
  | some s => s == "" || s == "null"

/-- Embeds validate_request_data (functions.py 175-194).  The resolve
argument models GoHighLevelAPI.get_conversation_id (functions.py
74-103), returning none when the CRM lookup fails; per line 191 a
resolved id is additionally rejected only when falsy (empty), so a
resolved literal "null" passes, exactly as in the source. -/
def validate_request_data (data : RequestData) (resolve : String → Option String) :
    Option ValidatedFields :=
  match data.thread_id, data.assistant_id, data.ghl_contact_id, data.ghl_recent_message with
  | some t, some a, some c, some m =>
    if fieldMissing (some t) || fieldMissing (some a) ||
        fieldMissing (some c) || fieldMissing (some m) then
      none
    else if fieldMissing data.ghl_convo_id then
      match resolve c with
      | none => none
      | some cid => if cid = "" then none else some ⟨t, a, c, m, cid⟩
    else
      match data.ghl_convo_id with
      | some cid => some ⟨t, a, c, m, cid⟩
      | none => none
  | _, _, _, _ => none

/-- A Redis hash value: an ordered association list of field name and
value, as manipulated by hset with a mapping (main.py 99). -/
def RedisHash : Type := List (String × String)

/-- Field lookup in a Redis hash. -/
def hashGet (h : List (String × String)) (f : String) : Option String :=
  (h.find? fun p => p.1 = f).map Prod.snd

/-- One field write of hset: overwrite the value in place when the
field exists (contributing 0 to the hset return value), append the
field otherwise (contributing 1, since HSET returns the number of
fields newly added). -/
def hashSet (h : List (String × String)) (f v : String) : List (String × String) × Nat :=
  match hashGet h f with
  | some _ => (h.map fun p => if p.1 = f then (f, v) else p, 0)
  | none => (h ++ [(f, v)], 1)

/-- Redis hset with a mapping (main.py 99): write every pair of the
mapping in order and return the number of newly created fields. -/
def hsetMapping (h : List (String × String)) (m : List (String × String)) :
    List (String × String) × Nat :=
  m.foldl (fun acc fv =>
    match hashSet acc.1 fv.1 fv.2 with
    | (h2, c) => (h2, acc.2 + c)) (h, 0)

/-- The Redis key-value state used by the debounce store: per key a
hash (the empty hash meaning the key is absent, as in Redis) and an
optional absolute expiry time set by expire. -/
structure RedisState where
  store : String → List (String × String)
  expiresAt : String → Option Nat

/-- The debounce TTL of 30 seconds set at main.py 100. -/
def debounce_ttl : Nat := 30

/-- The hash currently visible at a key: Redis deletes a key lazily
once its TTL has elapsed, so an entry whose expiry is not in the
future reads as absent. -/
def liveHash (st : RedisState) (key : String) (now : Nat) : List (String × String) :=
  match st.expiresAt key with
  | some e => if now < e then st.store key else []
  | none => st.store key

/-- Embeds main.py 96-100, the record_update operation of the debounce
store (spec 4.1): hset the full validated mapping onto the contact key,
then reset its TTL to 30 seconds.  Returns the new Redis state and the
hset return value, whose truthiness distinguishes the created case
(Time Delay Started log, main.py 106-111) from the refreshed case
(Time Delay Reset log, main.py 112-117). -/
def record_update (st : RedisState) (key : String) (m : List (String × String)) (now : Nat) :
    RedisState × Nat :=
  match hsetMapping (liveHash st key now) m with
  | (h2, created) =>
    (⟨fun k => if k = key then h2 else st.store k,
      fun k => if k = key then some (now + debounce_ttl) else st.expiresAt k⟩, created)

/-- The mapping passed to hset at main.py 99: the validated fields dict
in its insertion order. -/
def fieldsMapping (v : ValidatedFields) : List (String × String) :=
  [("thread_id", v.thread_id), ("assistant_id", v.assistant_id),
   ("ghl_contact_id", v.ghl_contact_id), ("ghl_recent_message", v.ghl_recent_message),
   ("ghl_convo_id", v.ghl_convo_id)]

/-- The validated fields dict viewed again as a request-shaped dict,
which is what queue.put stores at main.py 104. -/
def toRequestData (v : ValidatedFields) : RequestData :=
  ⟨some v.thread_id, some v.assistant_id, some v.ghl_contact_id,
   some v.ghl_recent_message, some v.ghl_convo_id, []⟩

/-- The per-process application state touched by the endpoints: the
Redis connection state and the per-contact asyncio queues of main.py 47
(a queue that was never created reads as empty). -/
structure AppState where
  redis : RedisState
  queues : String → List RequestData

/-- Collaborator results consumed by trigger_response: the OpenAI
create_thread call of main.py 87 (the new thread id, or none on
failure) and the CRM conversation-id lookup used during validation. -/
structure TriggerEnv where
  createThread : Option String
  resolveConvo : String → Option String

/-- The HTTP outcome of trigger_response: 400 on validation failure, or
200 with the contact id; numFieldsAdded records the hset return value
that selects between the two log lines of main.py 106-117. -/
inductive TriggerResult where
  | invalid
  | queuedTurn (contact : String) (numFieldsAdded : Nat)
deriving DecidableEq, Repr

/-- Embeds the trigger_response endpoint (main.py 78-128): optionally
rewrite thread_id from create_thread when a messages array is present
(85-89), validate (91-93), write the debounce entry with a fresh 30s
TTL (95-100), enqueue the validated fields on the contact queue (103-
104), and schedule a drain task (120).  The scheduled drain task is
modelled by the sequencer transition system below. -/
def trigger_response (st : AppState) (env : TriggerEnv) (data : RequestData) (now : Nat) :
    AppState × TriggerResult :=
  let data2 :=
    if data.messages ≠ [] then
      match env.createThread with
      | some tid => { data with thread_id := some tid }
      | none => data
    else data
  match validate_request_data data2 env.resolveConvo with
  | none => (st, .invalid)
  | some v =>
    match record_update st.redis ("contact:" ++ v.ghl_contact_id) (fieldsMapping v) now with
    | (redis2, created) =>
      (⟨redis2, fun k => if k = v.ghl_contact_id then st.queues k ++ [toRequestData v]
                         else st.queues k⟩,
       .queuedTurn v.ghl_contact_id created)

/-- The HTTP outcome of move_convo_forward: 400 when the contact id is
falsy, 200 otherwise. -/
inductive MoveResult where
  | missingContact
  | queuedRequest (contact : String)
deriving DecidableEq, Repr

/-- Embeds the move_convo_forward endpoint (main.py 134-165): check
only that ghl_contact_id is present and truthy (144-146), then enqueue
the raw request dict unvalidated (149-152) and schedule a drain task
(157). -/
def move_convo_forward (st : AppState) (data : RequestData) : AppState × MoveResult :=
  match data.ghl_contact_id with
  | none => (st, .missingContact)
  | some cid =>
    if cid = "" then (st, .missingContact)
    else
      (⟨st.redis, fun k => if k = cid then st.queues k ++ [data] else st.queues k⟩,
       .queuedRequest cid)

/-! Embedding of src/celery_worker.py: the run-status poll loop, the
job submission flow inside process_conversation, and the celery retry
machinery configured by the task decorator. -/

/-- The OpenAI run status set (spec 6, Collaborator A). -/
inductive RunStatus where
  | queued
  | in_progress
  | completed
  | failed
  | expired
  | cancelled
deriving DecidableEq, Repr

/-- The terminal-status test of celery_worker.py 43. -/
def isTerminal : RunStatus → Bool
  | .completed => true
  | .failed => true
  | .expired => true
  | .cancelled => true
  | _ => false

/-- The fixed poll interval of 1 second (time.sleep(1), celery_worker.py 45). -/
def pollInterval : Nat := 1

/-- The celery task_time_limit of 600 seconds (celery_worker.py 30),
the only bound on a task; the poll loop itself carries none. -/
def task_time_limit : Nat := 600

/-- What one evaluation of wait_for_run_completion can yield: the run
with a terminal status (line 44), None after a retrieve exception
(lines 46-48), or no return yet within the polls unfolded so far (the
source loops while True; stillPolling marks exhausted unfolding fuel,
never a source-level return). -/
inductive PollOutcome where
  | finished (s : RunStatus)
  | pollError
  | stillPolling
deriving DecidableEq, Repr

/-- Embeds wait_for_run_completion (celery_worker.py 35-48).  The
statusAt oracle gives the run status the service reports at a given
time in seconds (none modelling a retrieve exception); polls happen at
times n, n + pollInterval, ... because the loop sleeps exactly
pollInterval between retrieves.  Returns the outcome together with the
list of times at which a retrieve was issued. -/
def wait_for_run_completion (statusAt : Nat → Option RunStatus) :
    Nat → Nat → PollOutcome × List Nat
  | _, 0 => (.stillPolling, [])
  | n, fuel + 1 =>
    match statusAt n with
    | none => (.pollError, [n])
    | some s =>
      if isTerminal s then (.finished s, [n])
      else
        match wait_for_run_completion statusAt (n + pollInterval) fuel with
        | (out, ts) => (out, n :: ts)

/-- One message of the thread as returned by messages.list
(celery_worker.py 86), newest first: a role and the content array,
each content part abstracted to its text value. -/
structure ThreadMessage where
  role : String
  content : List String
deriving DecidableEq, Repr

/-- The ways the inner try of process_conversation (celery_worker.py
66-98) can raise: an exception from messages.create (68-72), from
runs.create (75-78), the explicit raise on a run that is None or not
completed (82-83, the status carried in the message, none standing for
the Unknown case), an exception from messages.list (86), the explicit
raise when no assistant message exists (89-90), and an IndexError on an
empty content array (92). -/
inductive JobError where
  | submissionMessage
  | submissionRun
  | runNotCompleted (status : Option RunStatus)
  | noAssistantMessage
  | emptyContent
deriving DecidableEq, Repr

/-- The externally visible calls made by the job flow, in order. -/
inductive JobEffect where
  | createdMessage (thread text : String)
  | startedRun (thread assistant : String)
  | polled (t : Nat)
  | listedMessages (thread : String)
deriving DecidableEq, Repr

/-- The job-service collaborator as seen by one task execution:
messages.create and runs.create keyed by the arguments the code passes
(none modelling a raised exception, a run id on success), the status
oracle for the poll loop, and the messages.list result (newest first,
none modelling a raised exception). -/
structure JobEnv where
  createMessage : String → String → Option Unit
  createRun : String → String → Option String
  statusAt : Nat → Option RunStatus
  listMessages : Option (List ThreadMessage)

/-- Embeds the inner try of process_conversation (celery_worker.py
66-98), the run_job operation of spec 4.5: append the user message to
the thread, start a run for the assistant, drive the poll loop, and on
completed return the text of the first assistant-role message of the
newest-first list (87, 92).  A some result is the value the source
returns or the exception it raises; none means the poll loop was still
running after the unfolded polls.  The second component is the trace of
collaborator calls. -/
def run_job (v : ValidatedFields) (env : JobEnv) (fuel : Nat) :
    Option (Except JobError String) × List JobEffect :=
  match env.createMessage v.thread_id v.ghl_recent_message with
  | none => (some (.error .submissionMessage), [])
  | some _ =>
    match env.createRun v.thread_id v.assistant_id with
    | none => (some (.error .submissionRun),
               [JobEffect.createdMessage v.thread_id v.ghl_recent_message])
    | some _ =>
      match wait_for_run_completion env.statusAt 0 fuel with
      | (out, ts) =>
        let effs := JobEffect.createdMessage v.thread_id v.ghl_recent_message ::
          JobEffect.startedRun v.thread_id v.assistant_id :: ts.map JobEffect.polled
        match out with
        | .stillPolling => (none, effs)
        | .pollError => (some (.error (.runNotCompleted none)), effs)
        | .finished s =>
          if s = .completed then
            match env.listMessages with
            | none => (some (.error (.runNotCompleted none)), effs)
            | some msgs =>
              let effs2 := effs ++ [JobEffect.listedMessages v.thread_id]
              match msgs.find? fun m => m.role == "assistant" with
              | none => (some (.error .noAssistantMessage), effs2)
              | some m =>
                match m.content.head? with
                | none => (some (.error .emptyContent), effs2)
                | some c => (some (.ok c), effs2)
          else (some (.error (.runNotCompleted (some s))), effs)

/-- The retry budget of the task decorator (celery_worker.py 50):
max_retries=3. -/
def max_retries : Nat := 3

/-- The fixed retry delay of the task decorator (celery_worker.py 50):
default_retry_delay=5 seconds. -/
def default_retry_delay : Nat := 5

/-- What one execution of the process_conversation task body yields:
the 400 dict of lines 58-59, the 200 dict of lines 94-98, or an
exception propagating to the retry handler of lines 106-115. -/
inductive TaskBodyResult where
  | invalidReturn
  | success (contact response : String)
  | raised (msg : String)
deriving DecidableEq, Repr

/-- The value of calling the async validate_request_data without await
(celery_worker.py 57): a coroutine object.  Subscripting it raises
TypeError, so no field value can ever be produced, which the Empty
result type records. -/
def coroutineSubscript (field : String) : Option Empty := none

/-- A coroutine object is truthy in Python, so the falsiness test of
celery_worker.py 58 can never fire. -/
def coroutineTruthy : Bool := true

/-- The TypeError message raised at celery_worker.py 61 when the
coroutine returned by the un-awaited validate_request_data call is
subscripted. -/
def typeErrorMsg : String := "TypeError: coroutine object is not subscriptable"

/-- Embeds one execution of the process_conversation task body
(celery_worker.py 51-104).  Line 57 binds the coroutine object, not
the validation result, because the async validate_request_data is
called without await; the 400 branch of lines 58-59 is therefore dead,
and line 61 raises TypeError before any job-service call.  Lines 62-98
are unreachable from here; their semantics is embedded separately as
run_job, which is what would execute were validated fields available
(the Empty scrutinee proves the branch cannot be taken). -/
def process_conversation_body (data : RequestData) (env : JobEnv) (fuel : Nat) :
    TaskBodyResult :=
  if coroutineTruthy = false then .invalidReturn
  else
    match coroutineSubscript "thread_id" with
    | some e => e.elim
    | none => .raised typeErrorMsg

/-- The celery retry driver for a task with bind=True (celery_worker.py
50, 106-115): run the body at the current retry count; on an
exception, re-run it after default_retry_delay seconds while
self.request.retries < max_retries, else return the error dict with
status 500.  remaining is max_retries minus the current retry count,
so the guard retries < max_retries is exactly remaining being
positive.  The trace records the final returned value, the number of
body executions, and the delay before each re-execution. -/
structure RetryTrace where
  final : TaskBodyResult
  finalRetries : Nat
  executions : Nat
  delays : List Nat
deriving DecidableEq, Repr

/-- One-step-per-attempt unfolding of the celery retry loop. -/
def celery_retry (body : Nat → TaskBodyResult) (retries remaining : Nat) : RetryTrace :=
  match body retries with
  | .raised e =>
    match remaining with
    | rem + 1 =>
      match celery_retry body (retries + 1) rem with
      | t => ⟨t.final, t.finalRetries, t.executions + 1, default_retry_delay :: t.delays⟩
    | 0 => ⟨.raised e, retries, 1, []⟩
  | r => ⟨r, retries, 1, []⟩

/-- A full celery delivery of process_conversation: the first execution
runs with self.request.retries = 0 and the budget max_retries. -/
def celery_execute (body : Nat → TaskBodyResult) : RetryTrace :=
  celery_retry body 0 max_retries

/-! Embedding of process_conversation_queue (main.py 176-197) as a
transition system.  Each request to an endpoint appends a record to the
per-contact asyncio queue and creates a fresh drain task; an
asyncio.Lock admits one task at a time into the drain loop, which pops
and fully processes records until the queue is empty and then releases
the lock.  The transition system keeps the whole pool of drain tasks
ever created for one key, so mutual exclusion is derived from the lock
semantics rather than assumed. -/

/-- The control point of one drain task for a key: created but not yet
past the async with lock of main.py 181; at the loop head of 183;
inside the processing of one record (184-193); or finished (the loop
exited and the lock was released). -/
inductive TaskPC (α : Type) where
  | start
  | loopHead
  | processing (r : α)
  | done
deriving DecidableEq, Repr

/-- The state of one key: its queue, its asyncio.Lock, the pool of
drain tasks created for it, the records fully processed so far in
order, and the ghost log of every record ever enqueued in order. -/
structure KeyState (α : Type) where
  queue : List α
  locked : Bool
  tasks : List (TaskPC α)
  processedLog : List α
  enqLog : List α
deriving DecidableEq, Repr

/-- The state of a key before any request: no queue entries, lock
free, no drain tasks. -/
def initKeyState (α : Type) : KeyState α := ⟨[], false, [], [], []⟩

/-- A task is active when it is inside the locked region. -/
def pcActive {α : Type} : TaskPC α → Bool
  | .loopHead => true
  | .processing _ => true
  | _ => false

/-- The record a task currently holds, if it is processing one. -/
def inFlightPC {α : Type} : TaskPC α → Option α
  | .processing r => some r
  | _ => none

/-- The records currently being processed for a key. -/
def inFlight {α : Type} (s : KeyState α) : List α :=
  s.tasks.filterMap inFlightPC

/-- How many of the drain tasks of a key are inside the locked
region. -/
def activeCount {α : Type} (s : KeyState α) : Nat :=
  s.tasks.countP pcActive

/-- One interleaving step of the system for a single key.  enqueue is a
request handler putting a record and creating a drain task (main.py
103-104 and 120, or 149-157); acquire is a created task entering the
async with lock, possible only when the lock is free (asyncio.Lock
semantics, main.py 181); pop is the loop head finding the queue
nonempty and taking its head (183-184); finish is the full processing
of the taken record ending, back to the loop head (187-193); exitLoop
is the loop head finding the queue empty, leaving the with block and
releasing the lock. -/
inductive SeqStep {α : Type} : KeyState α → KeyState α → Prop
  | enqueue (s : KeyState α) (r : α) :
      SeqStep s ⟨s.queue ++ [r], s.locked, s.tasks ++ [.start], s.processedLog,
                 s.enqLog ++ [r]⟩
  | acquire (s : KeyState α) (pre post : List (TaskPC α))
      (htasks : s.tasks = pre ++ TaskPC.start :: post) (hfree : s.locked = false) :
      SeqStep s ⟨s.queue, true, pre ++ TaskPC.loopHead :: post, s.processedLog, s.enqLog⟩
  | pop (s : KeyState α) (pre post : List (TaskPC α)) (r : α) (rest : List α)
      (htasks : s.tasks = pre ++ TaskPC.loopHead :: post) (hqueue : s.queue = r :: rest) :
      SeqStep s ⟨rest, s.locked, pre ++ TaskPC.processing r :: post, s.processedLog, s.enqLog⟩
  | finish (s : KeyState α) (pre post : List (TaskPC α)) (r : α)
      (htasks : s.tasks = pre ++ TaskPC.processing r :: post) :
      SeqStep s ⟨s.queue, s.locked, pre ++ TaskPC.loopHead :: post, s.processedLog ++ [r],
                 s.enqLog⟩
  | exitLoop (s : KeyState α) (pre post : List (TaskPC α))
      (htasks : s.tasks = pre ++ TaskPC.loopHead :: post) (hqueue : s.queue = []) :
      SeqStep s ⟨s.queue, false, pre ++ TaskPC.done :: post, s.processedLog, s.enqLog⟩

/-- The states one key can reach from process start. -/
inductive SeqReach {α : Type} : KeyState α → Prop
  | init : SeqReach (initKeyState α)
  | step (s s' : KeyState α) : SeqReach s → SeqStep s s' → SeqReach s'

/-- The inductive invariant of the drain system: the lock counts the
tasks inside the locked region, and the enqueue history is exactly the
processed records followed by the in-flight ones followed by the
queue. -/
def SeqInv {α : Type} (s : KeyState α) : Prop :=
  activeCount s = (if s.locked then 1 else 0) ∧
  s.enqLog = s.processedLog ++ inFlight s ++ s.queue

/-- The whole multi-key state: main.py keeps one queue and one lock
per contact id (main.py 66-76), so the system state is a key-indexed
family of key states. -/
def KeyedState (α : Type) : Type := String → KeyState α

/-- A step of the whole system is a step of exactly one key. -/
inductive KeyedStep {α : Type} : KeyedState α → KeyedState α → Prop
  | step (k : String) (f : KeyedState α) (s' : KeyState α) (h : SeqStep (f k) s') :
      KeyedStep f (fun k2 => if k2 = k then s' else f k2)

/-! Modelled from the spec: the Distributed Turn Lock.  No code in
src/ implements the processing_lock:(end_user_key) Redis lease that
spec 4.4 and 6 describe (src/main.py only has per-process asyncio
locks), so the lock is modelled from the words of spec 4.4:
try_acquire is an atomic conditional-create that fails while an
unexpired lock exists and succeeds otherwise, release is an
unconditional delete, and the lease reference is 600 seconds. -/

/-- Modelled from the spec: the cross-process lock table, per key an
optional lease expiry time (spec 3, Turn Lock). -/
structure LockStore where
  lock : String → Option Nat

/-- Modelled from the spec: the lease reference of 600 seconds (spec
4.4 and the processing_lock TTL of spec 6). -/
def lease_seconds : Nat := 600

/-- Modelled from the spec: try_acquire(key, lease_seconds), the atomic
conditional-create of spec 4.4.  It fails while an unexpired lock
exists for the key and otherwise installs a lock expiring lease
seconds from now. -/
def try_acquire (st : LockStore) (key : String) (lease now : Nat) : LockStore × Bool :=
  match st.lock key with
  | some e =>
    if now < e then (st, false)
    else (⟨fun k => if k = key then some (now + lease) else st.lock k⟩, true)
  | none => (⟨fun k => if k = key then some (now + lease) else st.lock k⟩, true)

/-- Modelled from the spec: release(key), the unconditional delete of
spec 4.4. -/
def release (st : LockStore) (key : String) : LockStore :=
  ⟨fun k => if k = key then none else st.lock k⟩

/-! Concrete states and inputs used to exercise the definitions. -/

/-- An empty Redis. -/
def emptyRedis : RedisState := ⟨fun _ => [], fun _ => none⟩

/-- The application state right after startup (main.py 42-57): no
queues, empty Redis. -/
def emptyApp : AppState := ⟨emptyRedis, fun _ => []⟩

/-- A collaborator environment where no thread is created and the CRM
lookup fails; the burst updates below carry a conversation id, so the
resolver is never consulted for them. -/
def burstEnv : TriggerEnv := ⟨none, fun _ => none⟩

/-- First update of a burst for contact c1. -/
def burstUpdate1 : RequestData :=
  ⟨some "t1", some "a1", some "c1", some "hello", some "v1", []⟩

/-- Second update of the same burst, 2 seconds later, new text. -/
def burstUpdate2 : RequestData :=
  ⟨some "t1", some "a1", some "c1", some "world", some "v1", []⟩

/-- The validated fields of the first burst update. -/
def burstFields1 : ValidatedFields := ⟨"t1", "a1", "c1", "hello", "v1"⟩

/-- The validated fields of the second burst update. -/
def burstFields2 : ValidatedFields := ⟨"t1", "a1", "c1", "world", "v1"⟩

/-- A request carrying only a contact id: thread_id, assistant_id and
the message are missing, so validation must reject it. -/
def invalidRequest : RequestData := ⟨none, none, some "c1", none, none, []⟩

/-- A job-service environment whose run ends failed on every poll. -/
def failEnv : JobEnv :=
  ⟨fun _ _ => some (), fun _ _ => some "run1", fun _ => some .failed, none⟩

/-- A job-service environment that completes after two in-progress
polls and whose newest message is an assistant reply. -/
def helloEnv : JobEnv :=
  ⟨fun _ _ => some (), fun _ _ => some "run1",
   fun n => if n < 2 then some .in_progress else some .completed,
   some [⟨"assistant", ["Hello!"]⟩]⟩

/-- A completed run whose thread holds no assistant-authored message. -/
def userOnlyEnv : JobEnv :=
  ⟨fun _ _ => some (), fun _ _ => some "run1", fun _ => some .completed,
   some [⟨"user", ["hi"]⟩]⟩

/-- Validated fields used to drive the job flow in concrete checks. -/
def helloFields : ValidatedFields := ⟨"t1", "a1", "c1", "hi", "v1"⟩

/-- Sequencer state after one enqueue for a key: one queued record, a
created drain task not yet in the lock. -/
def seqW1 : KeyState Nat := ⟨[7], false, [.start], [], [7]⟩

/-- Sequencer state after the drain task acquired the lock. -/
def seqW2 : KeyState Nat := ⟨[7], true, [.loopHead], [], [7]⟩

/-- Sequencer state after the drain task popped the record. -/
def seqW3 : KeyState Nat := ⟨[], true, [.processing 7], [], [7]⟩

/-- Sequencer state after the record was fully processed. -/
def seqW4 : KeyState Nat := ⟨[], true, [.loopHead], [7], [7]⟩

/-- The multi-key state with every key idle. -/
def keyedW0 : KeyedState Nat := fun _ => initKeyState Nat

/-- The multi-key state after one enqueue for key c1 only. -/
def keyedW1 : KeyedState Nat := fun k2 => if k2 = "c1" then seqW1 else keyedW0 k2

/-! Helper lemmas. -/

/-- A present field that is neither empty nor the literal "null" is not
missing. -/
theorem fieldMissing_some_false {s : String} (h1 : s ≠ "") (h2 : s ≠ "null") :
    fieldMissing (some s) = false := by
  simp [fieldMissing, h1, h2]

/-- C8: validation accepts an input only when each of the four required
string fields is present and neither empty nor the literal "null"; with
the four fields good, a missing conversation id is resolved through the
CRM collaborator before the result is valid, a failed or empty
resolution yields a validation rejection (none, hence the 400 path of
main.py 92-93, never a job), and a successful resolution or a present
id is returned in the validated fields. -/
theorem C8_validation (t a c m : String) (convo : Option String) (msgs : List String)
    (resolve : String → Option String)
    (ht : t ≠ "" ∧ t ≠ "null") (ha : a ≠ "" ∧ a ≠ "null")
    (hc : c ≠ "" ∧ c ≠ "null") (hm : m ≠ "" ∧ m ≠ "null") :
    (∀ d : RequestData, (validate_request_data d resolve).isSome →
       fieldMissing d.thread_id = false ∧ fieldMissing d.assistant_id = false ∧
       fieldMissing d.ghl_contact_id = false ∧ fieldMissing d.ghl_recent_message = false) ∧
    (∀ cid : String, convo = some cid → fieldMissing convo = false →
       validate_request_data ⟨some t, some a, some c, some m, convo, msgs⟩ resolve =
         some ⟨t, a, c, m, cid⟩) ∧
    (fieldMissing convo = true → resolve c = none →
       validate_request_data ⟨some t, some a, some c, some m, convo, msgs⟩ resolve = none) ∧
    (fieldMissing convo = true → ∀ cid, resolve c = some cid → cid ≠ "" →
       validate_request_data ⟨some t, some a, some c, some m, convo, msgs⟩ resolve =
         some ⟨t, a, c, m, cid⟩) ∧
    (fieldMissing convo = true → resolve c = some "" →
       validate_request_data ⟨some t, some a, some c, some m, convo, msgs⟩ resolve = none) := by
  have hmt := fieldMissing_some_false ht.1 ht.2
  have hma := fieldMissing_some_false ha.1 ha.2
  have hmc := fieldMissing_some_false hc.1 hc.2
  have hmm := fieldMissing_some_false hm.1 hm.2
  refine ⟨?_, ?_, ?_, ?_, ?_⟩
  · rintro ⟨t0, a0, c0, m0, cv0, ms0⟩ h
    cases t0 <;> cases a0 <;> cases c0 <;> cases m0 <;>
      simp_all [validate_request_data, fieldMissing]
    rename_i t1 a1 c1 m1
    by_cases h1 : t1 = "" ∨ t1 = "null" ∨ a1 = "" ∨ a1 = "null" ∨ c1 = "" ∨ c1 = "null" ∨
        m1 = "" ∨ m1 = "null"
    · exfalso
      rcases h1 with h1 | h1 | h1 | h1 | h1 | h1 | h1 | h1 <;> simp [h1] at h
    · push_neg at h1
      obtain ⟨e1, e2, e3, e4, e5, e6, e7, e8⟩ := h1
      simp [e1, e2, e3, e4, e5, e6, e7, e8]
  · intro cid hcid hlive
    subst hcid
    simp [validate_request_data, hmt, hma, hmc, hmm, hlive]
  · intro hmiss hres
    simp [validate_request_data, hmt, hma, hmc, hmm, hmiss, hres]
  · intro hmiss cid hres hne
    simp [validate_request_data, hmt, hma, hmc, hmm, hmiss, hres, hne]
  · intro hmiss hres
    simp [validate_request_data, hmt, hma, hmc, hmm, hmiss, hres]

/-- Concrete check of C8: a request with good required fields and no
conversation id is accepted with the id the CRM resolver returns. -/
theorem C8_validation_witness :
    (("t1" : String) ≠ "" ∧ ("t1" : String) ≠ "null") ∧
    (∀ cid : String, (none : Option String) = some cid →
       fieldMissing (none : Option String) = false →
       validate_request_data ⟨some "t1", some "a1", some "c1", some "hi", none, []⟩
         (fun _ => some "v9") = some ⟨"t1", "a1", "c1", "hi", cid⟩) ∧
    (fieldMissing (none : Option String) = true → (fun (_ : String) => some "v9") "c1" = none →
       validate_request_data ⟨some "t1", some "a1", some "c1", some "hi", none, []⟩
         (fun _ => some "v9") = none) ∧
    (fieldMissing (none : Option String) = true → ∀ cid,
       (fun (_ : String) => some "v9") "c1" = some cid → cid ≠ "" →
       validate_request_data ⟨some "t1", some "a1", some "c1", some "hi", none, []⟩
         (fun _ => some "v9") = some ⟨"t1", "a1", "c1", "hi", cid⟩) := by
  have h := C8_validation "t1" "a1" "c1" "hi" none [] (fun _ => some "v9")
    (by decide) (by decide) (by decide) (by decide)
  exact ⟨by decide, h.2.1, h.2.2.1, h.2.2.2.1⟩

/-- Writing a full validated mapping over an empty hash creates all
five fields. -/
theorem hsetMapping_nil (v : ValidatedFields) :
    hsetMapping [] (fieldsMapping v) = (fieldsMapping v, 5) := rfl

/-- Writing a full validated mapping over a hash previously written by
record_update overwrites every field in place and creates none. -/
theorem hsetMapping_full (w v : ValidatedFields) :
    hsetMapping (fieldsMapping w) (fieldsMapping v) = (fieldsMapping v, 0) := rfl

/-- C9: record_update (main.py 96-100) overwrites the stored fields for
the key with the incoming update (no merging survives, provided the
live entry was itself written by record_update, the only writer in the
program), resets the TTL to the fixed 30-second window on every call
whether or not the entry existed, and its hset return value is positive
exactly when the entry did not exist, distinguishing created from
refreshed. -/
theorem C9_record_update (st : RedisState) (key : String) (v : ValidatedFields) (now : Nat)
    (h : liveHash st key now = [] ∨ ∃ w : ValidatedFields, liveHash st key now = fieldsMapping w) :
    (record_update st key (fieldsMapping v) now).1.store key = fieldsMapping v ∧
    (record_update st key (fieldsMapping v) now).1.expiresAt key = some (now + debounce_ttl) ∧
    (0 < (record_update st key (fieldsMapping v) now).2 ↔ liveHash st key now = []) := by
  rcases h with h | ⟨w, h⟩
  · rw [record_update, h, hsetMapping_nil]
    simp [h]
  · rw [record_update, h, hsetMapping_full]
    simp [h, fieldsMapping]

/-- Concrete check of C9 on an empty store: the first update creates
the entry, stores exactly its fields, and stamps a 30-second expiry. -/
theorem C9_record_update_witness :
    (liveHash emptyRedis "contact:c1" 0 = [] ∨
      ∃ w : ValidatedFields, liveHash emptyRedis "contact:c1" 0 = fieldsMapping w) ∧
    ((record_update emptyRedis "contact:c1" (fieldsMapping burstFields1) 0).1.store
        "contact:c1" = fieldsMapping burstFields1 ∧
     (record_update emptyRedis "contact:c1" (fieldsMapping burstFields1) 0).1.expiresAt
        "contact:c1" = some (0 + debounce_ttl) ∧
     (0 < (record_update emptyRedis "contact:c1" (fieldsMapping burstFields1) 0).2 ↔
        liveHash emptyRedis "contact:c1" 0 = [])) :=
  ⟨Or.inl rfl, C9_record_update emptyRedis "contact:c1" burstFields1 0 (Or.inl rfl)⟩

/-- C1: the claim fails on the code.  Two updates for contact c1
arriving 2 seconds apart, well inside the 30-second window, each
enqueue their own Turn Record: the queue ends with both records, not
exactly one, because trigger_response enqueues and schedules a drain on
every call (main.py 103-104, 120) and nothing waits on or reads the
debounce entry.  Only the Redis entry itself is coalesced: it holds the
last update fields with a freshly reset TTL. -/
theorem C1_no_debounce_coalescing :
    ((trigger_response (trigger_response emptyApp burstEnv burstUpdate1 0).1 burstEnv
        burstUpdate2 2).1.queues "c1").length = 2 ∧
    (trigger_response (trigger_response emptyApp burstEnv burstUpdate1 0).1 burstEnv
        burstUpdate2 2).1.queues "c1" =
      [toRequestData burstFields1, toRequestData burstFields2] ∧
    (trigger_response (trigger_response emptyApp burstEnv burstUpdate1 0).1 burstEnv
        burstUpdate2 2).1.redis.store ("contact:" ++ "c1") = fieldsMapping burstFields2 ∧
    (trigger_response (trigger_response emptyApp burstEnv burstUpdate1 0).1 burstEnv
        burstUpdate2 2).1.redis.expiresAt ("contact:" ++ "c1") = some (2 + debounce_ttl) ∧
    2 < 0 + debounce_ttl := by
  refine ⟨rfl, rfl, rfl, rfl, by decide⟩

/-- C5: the claim fails on the code.  A request missing thread_id,
assistant_id and the message but carrying a contact id is a validation
failure, yet move_convo_forward enqueues it untouched after checking
only the contact id (main.py 144-152), and the celery task, which calls
the async validate_request_data without await (celery_worker.py 57),
raises TypeError instead of returning the 400 rejection and is retried
the full three times before returning the 500 error dict: the
validation failure enters the retry path. -/
theorem C5_validation_enters_retry :
    validate_request_data invalidRequest (fun _ => none) = none ∧
    (move_convo_forward emptyApp invalidRequest).1.queues "c1" = [invalidRequest] ∧
    (move_convo_forward emptyApp invalidRequest).2 = MoveResult.queuedRequest "c1" ∧
    celery_execute (fun _ => process_conversation_body invalidRequest failEnv 1) =
      ⟨.raised typeErrorMsg, max_retries, max_retries + 1,
       [default_retry_delay, default_retry_delay, default_retry_delay]⟩ :=
  ⟨rfl, rfl, rfl, rfl⟩

/-- For a run that never reports a terminal status the poll loop never
returns, whatever the number of polls unfolded. -/
theorem wait_in_progress (fuel : Nat) : ∀ n : Nat,
    (wait_for_run_completion (fun _ => some RunStatus.in_progress) n fuel).1 =
      PollOutcome.stillPolling := by
  induction fuel with
  | zero => intro n; rfl
  | succ f ih =>
    intro n
    simp [wait_for_run_completion, isTerminal, ih]

/-- C7: the claim fails on the code.  wait_for_run_completion carries
no deadline: on a run whose status stays in_progress it never returns,
however many polls are unfolded; the only ceiling is the external
celery task_time_limit of 600 seconds, which kills the task without any
Turn Lock release (no such lock exists in the worker). -/
theorem C7_no_poll_deadline :
    (∀ fuel : Nat,
      (wait_for_run_completion (fun _ => some RunStatus.in_progress) 0 fuel).1 =
        PollOutcome.stillPolling) ∧
    task_time_limit = 600 :=
  ⟨fun fuel => wait_in_progress fuel 0, rfl⟩

/-- C3: a turn whose run would end in a terminal failure status on
every attempt is executed max_retries + 1 times in total, that is
retried exactly 3 times, with the fixed 5-second delay before each
retry; the final outcome is the permanent error dict reported with the
retry count at 3, and no further execution follows.  On this code every
attempt indeed raises (the TypeError of celery_worker.py 61 fires
before the job is ever submitted), so the conclusion holds for every
such environment; no distributed Turn Lock exists in the worker, so
none is left held. -/
theorem C3_retry_exhaustion (envs : Nat → JobEnv) (data : RequestData) (fuel : Nat)
    (h : ∀ i : Nat, ∃ s : RunStatus,
      (wait_for_run_completion (envs i).statusAt 0 fuel).1 = PollOutcome.finished s ∧
      isTerminal s = true ∧ s ≠ RunStatus.completed) :
    celery_execute (fun i => process_conversation_body data (envs i) fuel) =
      ⟨.raised typeErrorMsg, max_retries, max_retries + 1,
       [default_retry_delay, default_retry_delay, default_retry_delay]⟩ := rfl

/-- Concrete check of C3: with a run failing at every poll, the task
runs 4 times (3 retries), waits 5 seconds before each retry, and ends
in the permanent 500 error with the retry counter at 3. -/
theorem C3_retry_exhaustion_witness :
    (∀ i : Nat, ∃ s : RunStatus,
      (wait_for_run_completion ((fun _ : Nat => failEnv) i).statusAt 0 1).1 =
        PollOutcome.finished s ∧ isTerminal s = true ∧ s ≠ RunStatus.completed) ∧
    celery_execute (fun i => process_conversation_body invalidRequest ((fun _ : Nat => failEnv) i) 1) =
      ⟨.raised typeErrorMsg, max_retries, max_retries + 1,
       [default_retry_delay, default_retry_delay, default_retry_delay]⟩ :=
  ⟨fun _ => ⟨RunStatus.failed, rfl, rfl, by decide⟩,
   C3_retry_exhaustion (fun _ => failEnv) invalidRequest 1
     (fun _ => ⟨RunStatus.failed, rfl, rfl, by decide⟩)⟩

/-- The poll loop returns the status of the first terminal poll: if the
status oracle is non-terminal for the first k polls and terminal at
poll k, and at least k + 1 polls are unfolded, the loop returns that
status after issuing exactly the polls at times n, n + pollInterval,
..., n + pollInterval * k. -/
theorem wait_spec (statusAt : Nat → Option RunStatus) :
    ∀ (k n fuel : Nat) (s : RunStatus),
      (∀ j, j < k → ∃ s2, statusAt (n + pollInterval * j) = some s2 ∧ isTerminal s2 = false) →
      statusAt (n + pollInterval * k) = some s → isTerminal s = true → k < fuel →
      wait_for_run_completion statusAt n fuel =
        (PollOutcome.finished s, (List.range (k + 1)).map fun j => n + pollInterval * j) := by
  intro k
  induction k with
  | zero =>
    intro n fuel s hpre hk hterm hfuel
    match fuel, hfuel with
    | f + 1, _ =>
      rw [Nat.mul_zero, Nat.add_zero] at hk
      simp [wait_for_run_completion, hk, hterm, List.range_succ]
  | succ k ih =>
    intro n fuel s hpre hk hterm hfuel
    match fuel, hfuel with
    | f + 1, hf =>
      obtain ⟨s0, hs0, hnt⟩ := hpre 0 (Nat.succ_pos k)
      rw [Nat.mul_zero, Nat.add_zero] at hs0
      have hrec := ih (n + pollInterval) f s
        (fun j hj => by
          have h2 := hpre (j + 1) (by omega)
          rwa [show n + pollInterval * (j + 1) = n + pollInterval + pollInterval * j by ring]
            at h2)
        (by
          rw [show n + pollInterval + pollInterval * k = n + pollInterval * (k + 1) by ring]
          exact hk)
        hterm (by omega)
      have htr : n :: ((List.range (k + 1)).map fun j => n + pollInterval + pollInterval * j) =
          (List.range (k + 1 + 1)).map fun j => n + pollInterval * j := by
        conv_rhs => rw [List.range_succ_eq_map, List.map_cons, List.map_map]
        simp only [Nat.mul_zero, Nat.add_zero, List.cons.injEq, true_and]
        exact List.map_congr_left fun a _ => by
          simp only [Function.comp_apply, Nat.succ_eq_add_one]
          ring
      simp only [wait_for_run_completion, hs0, hnt, hrec, Bool.false_eq_true, if_false, htr]

/-- C6: the job flow appends the input text to the thread, starts a run
for the assistant, then polls the run status at the fixed 1-second
interval until the first terminal status; on completed it returns the
content of the first assistant-authored message of the newest-first
list, and on any other terminal status it raises the exception carrying
that status (the JobFailed outcome). -/
theorem C6_run_job (v : ValidatedFields) (env : JobEnv) (fuel k : Nat) (s : RunStatus)
    (msgs : List ThreadMessage) (m : ThreadMessage) (c : String)
    (hmsg : env.createMessage v.thread_id v.ghl_recent_message = some ())
    (hrun : ∃ rid, env.createRun v.thread_id v.assistant_id = some rid)
    (hpre : ∀ j, j < k → ∃ s2, env.statusAt (pollInterval * j) = some s2 ∧
      isTerminal s2 = false)
    (hk : env.statusAt (pollInterval * k) = some s)
    (hterm : isTerminal s = true)
    (hfuel : k < fuel)
    (hmsgs : env.listMessages = some msgs)
    (hfind : msgs.find? (fun m2 => m2.role == "assistant") = some m)
    (hc : m.content.head? = some c) :
    wait_for_run_completion env.statusAt 0 fuel =
      (PollOutcome.finished s, (List.range (k + 1)).map fun j => pollInterval * j) ∧
    (s = RunStatus.completed →
      run_job v env fuel =
        (some (Except.ok c),
         JobEffect.createdMessage v.thread_id v.ghl_recent_message ::
           JobEffect.startedRun v.thread_id v.assistant_id ::
           (((List.range (k + 1)).map fun j => JobEffect.polled (pollInterval * j)) ++
             [JobEffect.listedMessages v.thread_id]))) ∧
    (s ≠ RunStatus.completed →
      run_job v env fuel =
        (some (Except.error (JobError.runNotCompleted (some s))),
         JobEffect.createdMessage v.thread_id v.ghl_recent_message ::
           JobEffect.startedRun v.thread_id v.assistant_id ::
           ((List.range (k + 1)).map fun j => JobEffect.polled (pollInterval * j)))) := by
  obtain ⟨rid, hrid⟩ := hrun
  have hw := wait_spec env.statusAt k 0 fuel s
    (by simpa using hpre) (by simpa using hk) hterm hfuel
  have hw0 : wait_for_run_completion env.statusAt 0 fuel =
      (PollOutcome.finished s, (List.range (k + 1)).map fun j => pollInterval * j) := by
    simpa using hw
  refine ⟨hw0, ?_, ?_⟩
  · intro hs
    subst hs
    simp [run_job, hmsg, hrid, hw0, hmsgs, hfind, hc, List.map_map, Function.comp_def]
  · intro hs
    simp [run_job, hmsg, hrid, hw0, hs, List.map_map, Function.comp_def]

/-- Concrete check of C6: a run that completes on the third poll with
an assistant reply Hello! returns that text after polling at 0, 1 and 2
seconds. -/
theorem C6_run_job_witness :
    helloEnv.createMessage helloFields.thread_id helloFields.ghl_recent_message = some () ∧
    (∃ rid, helloEnv.createRun helloFields.thread_id helloFields.assistant_id = some rid) ∧
    (∀ j, j < 2 → ∃ s2, helloEnv.statusAt (pollInterval * j) = some s2 ∧
      isTerminal s2 = false) ∧
    helloEnv.statusAt (pollInterval * 2) = some RunStatus.completed ∧
    (2 : Nat) < 5 ∧
    helloEnv.listMessages = some [⟨"assistant", ["Hello!"]⟩] ∧
    wait_for_run_completion helloEnv.statusAt 0 5 =
      (PollOutcome.finished RunStatus.completed,
       (List.range (2 + 1)).map fun j => pollInterval * j) ∧
    run_job helloFields helloEnv 5 =
      (some (Except.ok "Hello!"),
       JobEffect.createdMessage helloFields.thread_id helloFields.ghl_recent_message ::
         JobEffect.startedRun helloFields.thread_id helloFields.assistant_id ::
         (((List.range (2 + 1)).map fun j => JobEffect.polled (pollInterval * j)) ++
           [JobEffect.listedMessages helloFields.thread_id])) := by
  have h := C6_run_job helloFields helloEnv 5 2 RunStatus.completed
    [⟨"assistant", ["Hello!"]⟩] ⟨"assistant", ["Hello!"]⟩ "Hello!"
    rfl ⟨"run1", rfl⟩ (by decide) rfl rfl (by decide) rfl rfl rfl
  exact ⟨rfl, ⟨"run1", rfl⟩, by decide, rfl, by decide, rfl, h.1, h.2.1 rfl⟩

/-- C10: a run that completes while the thread holds no
assistant-authored message raises the No assistant response found
exception (celery_worker.py 89-90), which enters the retry path, and is
never a successful outcome; in general a successful outcome always
carries the head content text of some assistant-authored message found
in the listed thread. -/
theorem C10_success_needs_assistant (v : ValidatedFields) (env : JobEnv) (fuel k : Nat)
    (msgs : List ThreadMessage)
    (hmsg : env.createMessage v.thread_id v.ghl_recent_message = some ())
    (hrun : ∃ rid, env.createRun v.thread_id v.assistant_id = some rid)
    (hpre : ∀ j, j < k → ∃ s2, env.statusAt (pollInterval * j) = some s2 ∧
      isTerminal s2 = false)
    (hk : env.statusAt (pollInterval * k) = some RunStatus.completed)
    (hfuel : k < fuel)
    (hmsgs : env.listMessages = some msgs)
    (hnone : msgs.find? (fun m2 => m2.role == "assistant") = none) :
    (run_job v env fuel).1 = some (Except.error JobError.noAssistantMessage) ∧
    (∀ c : String, (run_job v env fuel).1 ≠ some (Except.ok c)) ∧
    (∀ (env2 : JobEnv) (fuel2 : Nat) (c : String),
      (run_job v env2 fuel2).1 = some (Except.ok c) →
      ∃ (msgs2 : List ThreadMessage) (m2 : ThreadMessage),
        env2.listMessages = some msgs2 ∧
        msgs2.find? (fun x => x.role == "assistant") = some m2 ∧
        m2.role = "assistant" ∧ m2.content.head? = some c) := by
  obtain ⟨rid, hrid⟩ := hrun
  have hw := wait_spec env.statusAt k 0 fuel RunStatus.completed
    (by simpa using hpre) (by simpa using hk) rfl hfuel
  have h1 : (run_job v env fuel).1 = some (Except.error JobError.noAssistantMessage) := by
    simp [run_job, hmsg, hrid, hw, hmsgs, hnone]
  refine ⟨h1, ?_, ?_⟩
  · intro c hcon
    rw [h1] at hcon
    exact absurd hcon (by simp)
  · intro env2 fuel2 c h
    cases hcm : env2.createMessage v.thread_id v.ghl_recent_message with
    | none => simp [run_job, hcm] at h
    | some u =>
      cases hcr : env2.createRun v.thread_id v.assistant_id with
      | none => simp [run_job, hcm, hcr] at h
      | some rid2 =>
        rcases hwait : wait_for_run_completion env2.statusAt 0 fuel2 with ⟨out, ts⟩
        cases out with
        | stillPolling => simp [run_job, hcm, hcr, hwait] at h
        | pollError => simp [run_job, hcm, hcr, hwait] at h
        | finished s =>
          by_cases hs : s = RunStatus.completed
          · subst hs
            cases hlm : env2.listMessages with
            | none => simp [run_job, hcm, hcr, hwait, hlm] at h
            | some msgs2 =>
              cases hfind : msgs2.find? (fun x => x.role == "assistant") with
              | none => simp [run_job, hcm, hcr, hwait, hlm, hfind] at h
              | some m2 =>
                cases hhd : m2.content.head? with
                | none => simp [run_job, hcm, hcr, hwait, hlm, hfind, hhd] at h
                | some c0 =>
                  have hc0 : c0 = c := by
                    simp [run_job, hcm, hcr, hwait, hlm, hfind, hhd] at h
                    exact h
                  have hrole : m2.role = "assistant" := by
                    have := List.find?_some hfind
                    exact eq_of_beq this
                  exact ⟨msgs2, m2, rfl, hfind, hrole, hc0 ▸ hhd⟩
          · simp [run_job, hcm, hcr, hwait, hs] at h

/-- Concrete check of C10: a completed run over a thread with only a
user message ends in the no-assistant-response error, not success. -/
theorem C10_success_needs_assistant_witness :
    userOnlyEnv.createMessage helloFields.thread_id helloFields.ghl_recent_message = some () ∧
    (∃ rid, userOnlyEnv.createRun helloFields.thread_id helloFields.assistant_id =
      some rid) ∧
    userOnlyEnv.statusAt (pollInterval * 0) = some RunStatus.completed ∧
    (0 : Nat) < 1 ∧
    userOnlyEnv.listMessages = some [⟨"user", ["hi"]⟩] ∧
    ([⟨"user", ["hi"]⟩] : List ThreadMessage).find? (fun m2 => m2.role == "assistant") =
      none ∧
    (run_job helloFields userOnlyEnv 1).1 =
      some (Except.error JobError.noAssistantMessage) ∧
    (∀ c : String, (run_job helloFields userOnlyEnv 1).1 ≠ some (Except.ok c)) := by
  have h := C10_success_needs_assistant helloFields userOnlyEnv 1 0 [⟨"user", ["hi"]⟩]
    rfl ⟨"run1", rfl⟩ (fun j hj => absurd hj (Nat.not_lt_zero j)) rfl (by decide) rfl rfl
  exact ⟨rfl, ⟨"run1", rfl⟩, rfl, by decide, rfl, rfl, h.1, h.2.1⟩

/-- The created state of a task is inactive. -/
theorem pcActive_start {α : Type} : pcActive (TaskPC.start : TaskPC α) = false := rfl

/-- The loop head is inside the locked region. -/
theorem pcActive_loopHead {α : Type} : pcActive (TaskPC.loopHead : TaskPC α) = true := rfl

/-- A processing task is inside the locked region. -/
theorem pcActive_processing {α : Type} (r : α) : pcActive (TaskPC.processing r) = true := rfl

/-- A finished task is inactive. -/
theorem pcActive_done {α : Type} : pcActive (TaskPC.done : TaskPC α) = false := rfl

/-- A created task holds no record. -/
theorem inFlightPC_start {α : Type} : inFlightPC (TaskPC.start : TaskPC α) = none := rfl

/-- A task at the loop head holds no record. -/
theorem inFlightPC_loopHead {α : Type} : inFlightPC (TaskPC.loopHead : TaskPC α) = none := rfl

/-- A processing task holds its record. -/
theorem inFlightPC_processing {α : Type} (r : α) :
    inFlightPC (TaskPC.processing r) = some r := rfl

/-- A finished task holds no record. -/
theorem inFlightPC_done {α : Type} : inFlightPC (TaskPC.done : TaskPC α) = none := rfl

/-- Active count across the list surgery used by the step relation. -/
theorem countP_surgery {α : Type} (pre post : List (TaskPC α)) (x : TaskPC α) :
    (pre ++ x :: post).countP pcActive =
      pre.countP pcActive + post.countP pcActive + (if pcActive x then 1 else 0) := by
  rw [List.countP_append, List.countP_cons]
  omega

/-- In-flight records across the list surgery used by the step
relation. -/
theorem filterMap_surgery {α : Type} (pre post : List (TaskPC α)) (x : TaskPC α) :
    (pre ++ x :: post).filterMap inFlightPC =
      pre.filterMap inFlightPC ++ (inFlightPC x).toList ++ post.filterMap inFlightPC := by
  rw [List.filterMap_append, List.filterMap_cons]
  cases inFlightPC x <;> simp

/-- A task pool with no active task holds no record in flight. -/
theorem inFlight_nil_of_countP {α : Type} {l : List (TaskPC α)}
    (h : l.countP pcActive = 0) : l.filterMap inFlightPC = [] := by
  rw [List.filterMap_eq_nil_iff]
  intro a ha
  have h2 := List.countP_eq_zero.1 h a ha
  cases a with
  | start => exact inFlightPC_start
  | loopHead => exact inFlightPC_loopHead
  | processing r => exact absurd (pcActive_processing r) h2
  | done => exact inFlightPC_done

/-- At most as many records are in flight as tasks are active. -/
theorem inFlight_length_le {α : Type} (l : List (TaskPC α)) :
    (l.filterMap inFlightPC).length ≤ l.countP pcActive := by
  induction l with
  | nil => simp
  | cons a t ih =>
    rw [List.filterMap_cons, List.countP_cons]
    cases a with
    | start => simpa [inFlightPC_start, pcActive_start] using Nat.le_trans ih (by omega)
    | loopHead =>
      simpa [inFlightPC_loopHead, pcActive_loopHead] using Nat.le_trans ih (by omega)
    | processing r => simpa [inFlightPC_processing, pcActive_processing] using ih
    | done => simpa [inFlightPC_done, pcActive_done] using Nat.le_trans ih (by omega)

/-- The sequencer invariant holds initially. -/
theorem seqInv_init {α : Type} : SeqInv (initKeyState α) := by
  refine ⟨rfl, rfl⟩

/-- The sequencer invariant is preserved by every step. -/
theorem seqInv_step {α : Type} {s s' : KeyState α} (hinv : SeqInv s) (hstep : SeqStep s s') :
    SeqInv s' := by
  obtain ⟨h1, h2⟩ := hinv
  cases hstep with
  | enqueue r =>
    refine ⟨?_, ?_⟩
    · simp only [activeCount] at h1 ⊢
      simpa [List.countP_append, List.countP_cons, pcActive_start] using h1
    · simp only [inFlight] at h2 ⊢
      simp [List.filterMap_append, inFlightPC_start, h2, List.append_assoc]
  | acquire pre post htasks hfree =>
    simp only [activeCount, htasks, hfree, countP_surgery, pcActive_start, if_neg] at h1
    simp only [Bool.false_eq_true, if_false, Nat.add_zero, Nat.add_eq_zero] at h1
    simp only [inFlight, htasks, filterMap_surgery, inFlightPC_start, Option.toList_none,
      inFlight_nil_of_countP h1.1, inFlight_nil_of_countP h1.2, List.append_nil,
      List.nil_append] at h2
    refine ⟨?_, ?_⟩
    · simp [activeCount, countP_surgery, pcActive_loopHead, h1.1, h1.2]
    · simp [inFlight, filterMap_surgery, inFlightPC_loopHead, inFlight_nil_of_countP h1.1,
        inFlight_nil_of_countP h1.2, h2]
  | pop pre post r rest htasks hqueue =>
    simp only [activeCount, htasks, countP_surgery, pcActive_loopHead, if_pos] at h1
    cases hl : s.locked with
    | false => simp [hl] at h1
    | true =>
      rw [hl, if_pos rfl] at h1
      have hpre : pre.countP pcActive = 0 := by omega
      have hpost : post.countP pcActive = 0 := by omega
      simp only [inFlight, htasks, filterMap_surgery, inFlightPC_loopHead, Option.toList_none,
        inFlight_nil_of_countP hpre, inFlight_nil_of_countP hpost, List.append_nil,
        List.nil_append, hqueue] at h2
      refine ⟨?_, ?_⟩
      · simp [activeCount, countP_surgery, pcActive_processing, hpre, hpost, hl]
      · simp only [inFlight, filterMap_surgery, inFlightPC_processing, Option.toList_some,
          inFlight_nil_of_countP hpre, inFlight_nil_of_countP hpost, List.append_nil,
          List.nil_append]
        simpa [List.append_assoc] using h2
  | finish pre post r htasks =>
    simp only [activeCount, htasks, countP_surgery, pcActive_processing, if_pos] at h1
    cases hl : s.locked with
    | false => simp [hl] at h1
    | true =>
      rw [hl, if_pos rfl] at h1
      have hpre : pre.countP pcActive = 0 := by omega
      have hpost : post.countP pcActive = 0 := by omega
      simp only [inFlight, htasks, filterMap_surgery, inFlightPC_processing, Option.toList_some,
        inFlight_nil_of_countP hpre, inFlight_nil_of_countP hpost, List.append_nil,
        List.nil_append] at h2
      refine ⟨?_, ?_⟩
      · simp [activeCount, countP_surgery, pcActive_loopHead, hpre, hpost, hl]
      · simp only [inFlight, filterMap_surgery, inFlightPC_loopHead, Option.toList_none,
          inFlight_nil_of_countP hpre, inFlight_nil_of_countP hpost, List.append_nil,
          List.nil_append]
        simpa [List.append_assoc] using h2
  | exitLoop pre post htasks hqueue =>
    simp only [activeCount, htasks, countP_surgery, pcActive_loopHead, if_pos] at h1
    cases hl : s.locked with
    | false => simp [hl] at h1
    | true =>
      rw [hl, if_pos rfl] at h1
      have hpre : pre.countP pcActive = 0 := by omega
      have hpost : post.countP pcActive = 0 := by omega
      simp only [inFlight, htasks, filterMap_surgery, inFlightPC_loopHead, Option.toList_none,
        inFlight_nil_of_countP hpre, inFlight_nil_of_countP hpost, List.append_nil,
        List.nil_append, hqueue] at h2
      refine ⟨?_, ?_⟩
      · simp [activeCount, countP_surgery, pcActive_done, hpre, hpost]
      · simp only [inFlight, filterMap_surgery, inFlightPC_done, Option.toList_none,
          inFlight_nil_of_countP hpre, inFlight_nil_of_countP hpost, List.append_nil,
          List.nil_append, hqueue]
        simpa using h2

/-- The sequencer invariant holds in every reachable state. -/
theorem seqInv_reach {α : Type} {s : KeyState α} (h : SeqReach s) : SeqInv s := by
  induction h with
  | init => exact seqInv_init
  | step s s' hr hst ih => exact seqInv_step ih hst

/-- C2: in every reachable state of the drain system for a key, the
records fully processed so far are a prefix of the enqueue history
(exact FIFO, nothing skipped or duplicated), at most one record is in
flight, and whenever a record is in flight the per-key lock is held;
moreover, while a record is in flight no step can pop another record or
release the lock, only enqueues or the completion of that same record
can happen, so the lock is held for the entire job execution of each
record before the next is popped; and a step of the multi-key system
touches exactly one key, leaving every other key unchanged. -/
theorem C2_fifo_drain :
    (∀ (α : Type) (s : KeyState α), SeqReach s →
       (∃ t, s.processedLog ++ t = s.enqLog) ∧
       (inFlight s).length ≤ 1 ∧
       (inFlight s ≠ [] → s.locked = true)) ∧
    (∀ (α : Type) (s s' : KeyState α), SeqReach s → SeqStep s s' → inFlight s ≠ [] →
       (∃ t, s'.queue = s.queue ++ t) ∧ s'.locked = true ∧
       (inFlight s' = inFlight s ∨
         (inFlight s' = [] ∧ s'.processedLog = s.processedLog ++ inFlight s))) ∧
    (∀ (α : Type) (f f2 : KeyedState α), KeyedStep f f2 →
       ∃ k, SeqStep (f k) (f2 k) ∧ ∀ k2, k2 ≠ k → f2 k2 = f k2) := by
  have locked_of_inFlight : ∀ (α : Type) (s : KeyState α), SeqInv s → inFlight s ≠ [] →
      s.locked = true := by
    intro α s hinv hne
    obtain ⟨h1, h2⟩ := hinv
    cases hl : s.locked with
    | true => rfl
    | false =>
      rw [hl, if_neg (by simp), activeCount] at h1
      exact absurd (inFlight_nil_of_countP h1) hne
  refine ⟨?_, ?_, ?_⟩
  · intro α s hreach
    obtain ⟨h1, h2⟩ := seqInv_reach hreach
    refine ⟨⟨inFlight s ++ s.queue, ?_⟩, ?_, ?_⟩
    · rw [h2, List.append_assoc]
    · have hle := inFlight_length_le s.tasks
      rw [activeCount] at h1
      rw [inFlight]
      have hcle : s.tasks.countP pcActive ≤ 1 := by
        rw [h1]
        split <;> simp
      exact le_trans hle hcle
    · exact locked_of_inFlight α s ⟨h1, h2⟩
  · intro α s s' hreach hstep hne
    have hinv := seqInv_reach hreach
    obtain ⟨h1, h2⟩ := hinv
    have hlock := locked_of_inFlight α s ⟨h1, h2⟩ hne
    cases hstep with
    | enqueue r =>
      refine ⟨⟨[r], rfl⟩, hlock, Or.inl ?_⟩
      simp [inFlight, List.filterMap_append, inFlightPC_start]
    | acquire pre post htasks hfree =>
      rw [hlock] at hfree
      exact absurd hfree (by simp)
    | pop pre post r rest htasks hqueue =>
      exfalso
      rw [activeCount, htasks, countP_surgery, pcActive_loopHead, if_pos rfl, hlock,
        if_pos rfl] at h1
      have hpre : pre.countP pcActive = 0 := by omega
      have hpost : post.countP pcActive = 0 := by omega
      refine hne ?_
      simp [inFlight, htasks, filterMap_surgery, inFlightPC_loopHead,
        inFlight_nil_of_countP hpre, inFlight_nil_of_countP hpost]
    | finish pre post r htasks =>
      rw [activeCount, htasks, countP_surgery, pcActive_processing, if_pos rfl, hlock,
        if_pos rfl] at h1
      have hpre : pre.countP pcActive = 0 := by omega
      have hpost : post.countP pcActive = 0 := by omega
      have hfl : inFlight s = [r] := by
        simp [inFlight, htasks, filterMap_surgery, inFlightPC_processing,
          inFlight_nil_of_countP hpre, inFlight_nil_of_countP hpost]
      refine ⟨⟨[], by simp⟩, hlock, Or.inr ⟨?_, ?_⟩⟩
      · simp [inFlight, filterMap_surgery, inFlightPC_loopHead,
          inFlight_nil_of_countP hpre, inFlight_nil_of_countP hpost]
      · simp [hfl]
    | exitLoop pre post htasks hqueue =>
      exfalso
      rw [activeCount, htasks, countP_surgery, pcActive_loopHead, if_pos rfl, hlock,
        if_pos rfl] at h1
      have hpre : pre.countP pcActive = 0 := by omega
      have hpost : post.countP pcActive = 0 := by omega
      refine hne ?_
      simp [inFlight, htasks, filterMap_surgery, inFlightPC_loopHead,
        inFlight_nil_of_countP hpre, inFlight_nil_of_countP hpost]
  · intro α f f2 hks
    cases hks with
    | step k f s' h =>
      refine ⟨k, ?_, ?_⟩
      · show SeqStep (f k) (if k = k then s' else f k)
        rw [if_pos rfl]
        exact h
      · intro k2 hk2
        show (if k2 = k then s' else f k2) = f k2
        rw [if_neg hk2]

/-- Concrete run of C2: for one key a record is enqueued, the drain
task takes the lock, pops it, and finishes it; the processed log stays
a prefix of the enqueue log, at most one record is in flight, the lock
is held throughout, and the multi-key step touches only its key. -/
theorem C2_fifo_drain_witness :
    SeqReach seqW3 ∧ SeqStep seqW3 seqW4 ∧ inFlight seqW3 ≠ [] ∧
    KeyedStep keyedW0 keyedW1 ∧
    ((∃ t, seqW3.processedLog ++ t = seqW3.enqLog) ∧ (inFlight seqW3).length ≤ 1 ∧
      (inFlight seqW3 ≠ [] → seqW3.locked = true)) ∧
    ((∃ t, seqW4.queue = seqW3.queue ++ t) ∧ seqW4.locked = true ∧
      (inFlight seqW4 = inFlight seqW3 ∨
        (inFlight seqW4 = [] ∧ seqW4.processedLog = seqW3.processedLog ++ inFlight seqW3))) ∧
    (∃ k, SeqStep (keyedW0 k) (keyedW1 k) ∧ ∀ k2, k2 ≠ k → keyedW1 k2 = keyedW0 k2) := by
  have r2 : SeqReach seqW1 :=
    SeqReach.step _ _ SeqReach.init (SeqStep.enqueue (initKeyState Nat) 7)
  have r3 : SeqReach seqW2 := SeqReach.step _ _ r2 (SeqStep.acquire seqW1 [] [] rfl rfl)
  have r4 : SeqReach seqW3 := SeqReach.step _ _ r3 (SeqStep.pop seqW2 [] [] 7 [] rfl rfl)
  have hstep : SeqStep seqW3 seqW4 := SeqStep.finish seqW3 [] [] 7 rfl
  have hne : inFlight seqW3 ≠ [] := by decide
  have hkeyed : KeyedStep keyedW0 keyedW1 :=
    KeyedStep.step "c1" keyedW0 seqW1 (SeqStep.enqueue (keyedW0 "c1") 7)
  exact ⟨r4, hstep, hne, hkeyed, C2_fifo_drain.1 Nat seqW3 r4,
    C2_fifo_drain.2.1 Nat seqW3 seqW4 r4 hstep hne,
    C2_fifo_drain.2.2 Nat keyedW0 keyedW1 hkeyed⟩

/-- C4 (spec-modelled): try_acquire is a conditional-create on the
lock table: while an unexpired lock for the key exists a second caller
fails and the table is unchanged; with no lock, or once the lease TTL
has elapsed even without any release, a caller succeeds and installs a
lock expiring lease seconds from now; in particular a lock taken at
time t blocks any caller strictly before t plus the lease and admits
any caller from then on. -/
theorem C4_turn_lock (st : LockStore) (key : String) (lease lease2 t t2 : Nat) :
    (st.lock key = none →
      (try_acquire st key lease t).2 = true ∧
      (try_acquire st key lease t).1.lock key = some (t + lease)) ∧
    (∀ e, st.lock key = some e → t < e →
      try_acquire st key lease t = (st, false)) ∧
    (∀ e, st.lock key = some e → e ≤ t →
      (try_acquire st key lease t).2 = true ∧
      (try_acquire st key lease t).1.lock key = some (t + lease)) ∧
    ((try_acquire st key lease t).2 = true → t2 < t + lease →
      try_acquire (try_acquire st key lease t).1 key lease2 t2 =
        ((try_acquire st key lease t).1, false)) ∧
    ((try_acquire st key lease t).2 = true → t + lease ≤ t2 →
      (try_acquire (try_acquire st key lease t).1 key lease2 t2).2 = true) ∧
    (release st key).lock key = none := by
  refine ⟨?_, ?_, ?_, ?_, ?_, ?_⟩
  · intro h
    simp [try_acquire, h]
  · intro e he hlt
    simp [try_acquire, he, hlt]
  · intro e he hle
    simp [try_acquire, he, Nat.not_lt.2 hle]
  · intro hok hlt
    have hkey : (try_acquire st key lease t).1.lock key = some (t + lease) := by
      rcases hst : st.lock key with _ | e
      · simp [try_acquire, hst]
      · rcases hlt2 : decide (t < e) with _ | _
        · simp [try_acquire, hst, of_decide_eq_false hlt2]
        · rw [try_acquire, hst] at hok
          simp [of_decide_eq_true hlt2] at hok
    generalize hg : (try_acquire st key lease t).1 = st2 at hkey ⊢
    simp [try_acquire, hkey, hlt]
  · intro hok hle
    have hkey : (try_acquire st key lease t).1.lock key = some (t + lease) := by
      rcases hst : st.lock key with _ | e
      · simp [try_acquire, hst]
      · rcases hlt2 : decide (t < e) with _ | _
        · simp [try_acquire, hst, of_decide_eq_false hlt2]
        · rw [try_acquire, hst] at hok
          simp [of_decide_eq_true hlt2] at hok
    generalize hg : (try_acquire st key lease t).1 = st2 at hkey ⊢
    simp [try_acquire, hkey, Nat.not_lt.2 hle]
  · simp [release]

/-- Concrete check of C4 with the 600-second reference lease: a fresh
acquire at time 0 succeeds, a second caller at time 10 fails, and a
caller at time 600 succeeds with no release in between. -/
theorem C4_turn_lock_witness :
    ((⟨fun _ => none⟩ : LockStore).lock "c1" = none →
      (try_acquire ⟨fun _ => none⟩ "c1" lease_seconds 0).2 = true ∧
      (try_acquire ⟨fun _ => none⟩ "c1" lease_seconds 0).1.lock "c1" =
        some (0 + lease_seconds)) ∧
    ((try_acquire ⟨fun _ => none⟩ "c1" lease_seconds 0).2 = true →
      10 < 0 + lease_seconds →
      try_acquire (try_acquire ⟨fun _ => none⟩ "c1" lease_seconds 0).1 "c1"
          lease_seconds 10 =
        ((try_acquire ⟨fun _ => none⟩ "c1" lease_seconds 0).1, false)) ∧
    ((try_acquire ⟨fun _ => none⟩ "c1" lease_seconds 0).2 = true →
      0 + lease_seconds ≤ 600 →
      (try_acquire (try_acquire ⟨fun _ => none⟩ "c1" lease_seconds 0).1 "c1"
          lease_seconds 600).2 = true) ∧
    (10 : Nat) < 0 + lease_seconds ∧ 0 + lease_seconds ≤ 600 := by
  have h := C4_turn_lock ⟨fun _ => none⟩ "c1" lease_seconds lease_seconds 0 10
  have h2 := C4_turn_lock ⟨fun _ => none⟩ "c1" lease_seconds lease_seconds 0 600
  exact ⟨h.1, h.2.2.2.1, h2.2.2.2.2.1, by decide, by decide⟩

end RailwayFastapi
